import Mathlib

/-!
Shallow embedding of the weather MCP tool's core pipeline
(`src/services/weather.ts`, class `WeatherService`, together with the data
shapes of `src/types/weather.ts`).

JS strings are modelled as Lean `String` (operated on through `String.data`),
JS numbers that the pipeline only passes through (latitudes, temperatures,
HTTP interpolated values) are modelled by their decimal lexeme where they
occur inside JSON, and by `Nat` for HTTP status codes.  The behaviour of one
`fetch` call (including a thrown network error and a body whose `json()`
throws) is an explicit parameter, so the pipeline is a pure function of the
input and of the two upstream behaviours.  The list of upstream calls that
an execution performs is returned alongside the response, so that
"zero upstream calls" claims are statements about the embedding.
-/

namespace WeatherSpec

/-- The characters removed by `sanitizeInput`: the regex `[<>'";&()]`. -/
def blockedChars : List Char := ['<', '>', '\x27', '\x22', ';', '&', '(', ')']

/-- Whitespace for the purposes of `String.prototype.trim` (the common
ASCII whitespace characters; the repository only ever trims ordinary
space-padded input). -/
def isJsSpace (c : Char) : Bool :=
  c = ' ' || c = '\t' || c = '\n' || c = '\r' || c = '\x0b' || c = '\x0c'

/-- `input.replace(/[<>'";&()]/g, '')`. -/
def stripBlocked (s : String) : String :=
  ⟨s.data.filter (fun c => ! blockedChars.contains c)⟩

/-- `.trim()`: drop leading and trailing whitespace. -/
def jsTrim (s : String) : String :=
  ⟨((s.data.dropWhile isJsSpace).reverse.dropWhile isJsSpace).reverse⟩

/-- `.substring(0, n)`: the first `n` characters. -/
def jsSubstring0 (n : Nat) (s : String) : String :=
  ⟨s.data.take n⟩

/-- `WeatherService.sanitizeInput`: strip the blocked characters, trim,
then truncate to 100 characters, in that order. -/
def sanitizeInput (s : String) : String :=
  jsSubstring0 100 (jsTrim (stripBlocked s))

/-- A JS number that the pipeline never computes with: represented by its
decimal lexeme (what interpolation and `JSON.stringify` print for it). -/
abbrev JsNum := String

/-- One element of `GeocodingResult.results` (`src/types/weather.ts`). -/
structure GeoCandidate where
  latitude : JsNum
  longitude : JsNum
  name : String
  country : String
deriving Repr, DecidableEq

/-- `GeocodingResult`: `results` may be absent (`undefined`/`null`) or a list. -/
structure GeocodingResult where
  results : Option (List GeoCandidate)
deriving Repr, DecidableEq

/-- `WeatherData.current` (`src/types/weather.ts`). -/
structure CurrentWeather where
  time : String
  temperature_2m : JsNum
  apparent_temperature : JsNum
  is_day : JsNum
  rain : JsNum
deriving Repr, DecidableEq

/-- `WeatherData.hourly` (`src/types/weather.ts`). -/
structure HourlyWeather where
  time : List String
  temperature_2m : List JsNum
deriving Repr, DecidableEq

/-- `WeatherData` (`src/types/weather.ts`). -/
structure WeatherData where
  latitude : JsNum
  longitude : JsNum
  current : CurrentWeather
  hourly : HourlyWeather
deriving Repr, DecidableEq

/-- `WeatherInput`: the tool request `{ city }`; `none` models an absent
field (the claims quantify over absent input as well). -/
structure WeatherInput where
  city : Option String
deriving Repr, DecidableEq

/-- A thrown JS value: an `Error` carrying a message, or any other value
(`error instanceof Error` is false for the latter). -/
inductive JsError where
  | error (msg : String)
  | nonError
deriving Repr, DecidableEq

/-- The behaviour of one `fetch` call whose body parses (when it parses) to
an `α`: either `fetch` itself rejects (network failure), or it resolves to a
response with a status code, a status text and a body; `await r.json()` on
that body either throws or yields the parsed value. -/
inductive FetchBehavior (α : Type) where
  | throwErr (e : JsError)
  | resp (status : Nat) (statusText : String) (body : Except JsError α)
deriving Repr

/-- `Response.ok`: status in the range 200..299. -/
def responseOk (status : Nat) : Bool :=
  200 ≤ status && status ≤ 299

/-- One upstream call made by the pipeline, with the data that determines
its URL: the geocoding lookup carries the (sanitized) city, the forecast
lookup carries the coordinates taken from the first geocoding candidate. -/
inductive UpstreamCall where
  | geocode (city : String)
  | forecast (latitude longitude : JsNum)
deriving Repr, DecidableEq

/-- The result of the `try` block: either a returned string or a thrown
JS value that is about to reach the `catch`. -/
inductive JsOutcome (α : Type) where
  | value (a : α)
  | thrown (e : JsError)
deriving Repr, DecidableEq

def emptyCityMsg : String := "Error: City name cannot be empty"

def invalidCityMsg : String := "Error: Invalid city name provided"

def notFoundMsg : String :=
  "Error: City not found. Please check the spelling and try again."

def geoStatusMsg (status : Nat) (statusText : String) : String :=
  "Error fetching location data: " ++ toString status ++ " " ++ statusText

def weatherStatusMsg (status : Nat) (statusText : String) : String :=
  "Error fetching weather data: " ++ toString status ++ " " ++ statusText

/-- The `catch` handler:
`Error retrieving weather: $\x7berror instanceof Error ? error.message : 'Unknown error'\x7d`. -/
def renderCaught (e : JsError) : String :=
  "Error retrieving weather: " ++
    (match e with
     | .error msg => msg
     | .nonError => "Unknown error")

/-- `JSON.stringify(weatherData, null, 2)`, specialised to the `WeatherData`
shape; defined below with its serialisation helpers. -/
def hexDigitChar (n : Nat) : Char :=
  if n < 10 then Char.ofNat (48 + n) else Char.ofNat (97 + (n - 10))

/-- The JSON escape of one character, as produced by `JSON.stringify`. -/
def escChar (c : Char) : List Char :=
  if c = '\x22' then ['\\', '\x22']
  else if c = '\\' then ['\\', '\\']
  else if c = '\x08' then ['\\', 'b']
  else if c = '\x0c' then ['\\', 'f']
  else if c = '\n' then ['\\', 'n']
  else if c = '\r' then ['\\', 'r']
  else if c = '\t' then ['\\', 't']
  else if c.toNat < 32 then
    ['\\', 'u', '0', '0', hexDigitChar (c.toNat / 16), hexDigitChar (c.toNat % 16)]
  else [c]

/-- JSON string-body escaping on character lists. -/
def escList (l : List Char) : List Char :=
  (l.map escChar).flatten

/-- JSON string-body escaping, character by character. -/
def escapeString (s : String) : String :=
  ⟨escList s.data⟩

/-- The elements of a non-empty string array, rendered at the indentation
`JSON.stringify(·, null, 2)` uses for an array nested two objects deep. -/
def strArrElemsStr : List String → String
  | [] => ""
  | [x] => "      \x22" ++ escapeString x ++ "\x22"
  | x :: xs => "      \x22" ++ escapeString x ++ "\x22,\n" ++ strArrElemsStr xs

/-- A string array as `JSON.stringify(·, null, 2)` prints it at depth 2. -/
def strArrStr : List String → String
  | [] => "[]"
  | x :: xs => "[\n" ++ strArrElemsStr (x :: xs) ++ "\n    ]"

/-- The elements of a non-empty number array at depth-2 indentation. -/
def numArrElemsStr : List JsNum → String
  | [] => ""
  | [x] => "      " ++ x
  | x :: xs => "      " ++ x ++ ",\n" ++ numArrElemsStr xs

/-- A number array as `JSON.stringify(·, null, 2)` prints it at depth 2. -/
def numArrStr : List JsNum → String
  | [] => "[]"
  | x :: xs => "[\n" ++ numArrElemsStr (x :: xs) ++ "\n    ]"

/-- The `current` member of the serialised payload, with the separator that
precedes it: keys at depth-2 indentation, in declaration order. -/
def currentChunkStr (c : CurrentWeather) : String :=
  ",\n  \x22current\x22: \x7b\n    \x22time\x22: \x22" ++ escapeString c.time ++
  "\x22" ++ ",\n    \x22temperature_2m\x22: " ++ c.temperature_2m ++
  ",\n    \x22apparent_temperature\x22: " ++ c.apparent_temperature ++
  ",\n    \x22is_day\x22: " ++ c.is_day ++
  ",\n    \x22rain\x22: " ++ c.rain

/-- The `hourly` member of the serialised payload, with the separator
closing `current` that precedes it. -/
def hourlyChunkStr (h : HourlyWeather) : String :=
  "\n  \x7d,\n  \x22hourly\x22: \x7b\n    \x22time\x22: " ++ strArrStr h.time ++
  ",\n    \x22temperature_2m\x22: " ++ numArrStr h.temperature_2m

/-- `JSON.stringify(weatherData, null, 2)` for the `WeatherData` shape:
two-space indentation, keys in declaration order. -/
def stringifyWeatherData (w : WeatherData) : String :=
  "\x7b\n  \x22latitude\x22: " ++ w.latitude ++
  ",\n  \x22longitude\x22: " ++ w.longitude ++
  currentChunkStr w.current ++
  hourlyChunkStr w.hourly ++
  "\n  \x7d\n\x7d"

/-- Drop an expected literal from the front of the input; `none` when the
input does not start with it. -/
def dropLit : List Char → List Char → Option (List Char)
  | [], s => some s
  | _ :: _, [] => none
  | c :: lit, d :: s => if c = d then dropLit lit s else none

/-- Characters that can occur in a JSON number token. -/
def isNumChar (c : Char) : Bool :=
  c.isDigit || c = '-' || c = '+' || c = '.' || c = 'e' || c = 'E'

/-- Scan a (non-empty) JSON number token off the front of the input. -/
def scanNumTok (s : List Char) : Option (List Char × List Char) :=
  match s.takeWhile isNumChar with
  | [] => none
  | tok => some (tok, s.dropWhile isNumChar)

/-- The numeric value of one hexadecimal digit. -/
def hexVal (c : Char) : Option Nat :=
  if c.isDigit then some (c.toNat - 48)
  else if 'a' ≤ c && c ≤ 'f' then some (c.toNat - 87)
  else if 'A' ≤ c && c ≤ 'F' then some (c.toNat - 55)
  else none

/-- Scan a JSON string body (the opening quote already consumed) up to and
including the closing quote, decoding escapes; returns the decoded
characters and the input after the closing quote.  Fuel-indexed; one unit
of fuel is spent per decoded character or closing quote. -/
def scanJsonString : Nat → List Char → Option (List Char × List Char)
  | 0, _ => none
  | _ + 1, [] => none
  | fuel + 1, c :: rest =>
    if c = '\x22' then some ([], rest)
    else if c = '\\' then
      match rest with
      | [] => none
      | e :: rest2 =>
        if e = '\x22' then
          Option.map (fun p => ('\x22' :: p.1, p.2)) (scanJsonString fuel rest2)
        else if e = '\\' then
          Option.map (fun p => ('\\' :: p.1, p.2)) (scanJsonString fuel rest2)
        else if e = 'b' then
          Option.map (fun p => ('\x08' :: p.1, p.2)) (scanJsonString fuel rest2)
        else if e = 'f' then
          Option.map (fun p => ('\x0c' :: p.1, p.2)) (scanJsonString fuel rest2)
        else if e = 'n' then
          Option.map (fun p => ('\n' :: p.1, p.2)) (scanJsonString fuel rest2)
        else if e = 'r' then
          Option.map (fun p => ('\r' :: p.1, p.2)) (scanJsonString fuel rest2)
        else if e = 't' then
          Option.map (fun p => ('\t' :: p.1, p.2)) (scanJsonString fuel rest2)
        else if e = 'u' then
          match rest2 with
          | h1 :: h2 :: h3 :: h4 :: rest3 =>
            match hexVal h1, hexVal h2, hexVal h3, hexVal h4 with
            | some a, some b, some c2, some d =>
              Option.map
                (fun p => (Char.ofNat (4096 * a + 256 * b + 16 * c2 + d) :: p.1, p.2))
                (scanJsonString fuel rest3)
            | _, _, _, _ => none
          | _ => none
        else none
    else Option.map (fun p => (c :: p.1, p.2)) (scanJsonString fuel rest)

/-- Scan a JSON string body with enough fuel for the whole input. -/
def scanStr (s : List Char) : Option (List Char × List Char) :=
  scanJsonString s.length s

/-- Parse the elements of a non-empty depth-2 string array (after `[\n`). -/
def parseStrArrElems : Nat → List Char → Option (List String × List Char)
  | 0, _ => none
  | fuel + 1, s => do
    let r ← dropLit ("      \x22".data) s
    let (e, r2) ← scanStr r
    match dropLit (",\n".data) r2 with
    | some r3 => do
        let (es, r4) ← parseStrArrElems fuel r3
        some (⟨e⟩ :: es, r4)
    | none => do
        let r3 ← dropLit ("\n    ]".data) r2
        some ([⟨e⟩], r3)

/-- Parse a depth-2 string array. -/
def parseStrArray (s : List Char) : Option (List String × List Char) :=
  match dropLit ("[]".data) s with
  | some r => some ([], r)
  | none => do
    let r ← dropLit ("[\n".data) s
    parseStrArrElems r.length r

/-- Parse the elements of a non-empty depth-2 number array (after `[\n`). -/
def parseNumArrElems : Nat → List Char → Option (List JsNum × List Char)
  | 0, _ => none
  | fuel + 1, s => do
    let r ← dropLit ("      ".data) s
    let (tok, r2) ← scanNumTok r
    match dropLit (",\n".data) r2 with
    | some r3 => do
        let (es, r4) ← parseNumArrElems fuel r3
        some (⟨tok⟩ :: es, r4)
    | none => do
        let r3 ← dropLit ("\n    ]".data) r2
        some ([⟨tok⟩], r3)

/-- Parse a depth-2 number array. -/
def parseNumArray (s : List Char) : Option (List JsNum × List Char) :=
  match dropLit ("[]".data) s with
  | some r => some ([], r)
  | none => do
    let r ← dropLit ("[\n".data) s
    parseNumArrElems r.length r

/-- Parse the `current` object (with the `,\n  ...` separator that precedes
it), leaving the input positioned after the `rain` token. -/
def parseCurrent (s : List Char) : Option (CurrentWeather × List Char) := do
  let r4 ← dropLit (",\n  \x22current\x22: \x7b\n    \x22time\x22: \x22".data) s
  let (time, r5) ← scanStr r4
  let r6 ← dropLit (",\n    \x22temperature_2m\x22: ".data) r5
  let (t2m, r7) ← scanNumTok r6
  let r8 ← dropLit (",\n    \x22apparent_temperature\x22: ".data) r7
  let (app, r9) ← scanNumTok r8
  let r10 ← dropLit (",\n    \x22is_day\x22: ".data) r9
  let (isd, r11) ← scanNumTok r10
  let r12 ← dropLit (",\n    \x22rain\x22: ".data) r11
  let (rain, r13) ← scanNumTok r12
  some (⟨⟨time⟩, ⟨t2m⟩, ⟨app⟩, ⟨isd⟩, ⟨rain⟩⟩, r13)

/-- Parse the `hourly` object (with the separator closing `current` that
precedes it), leaving the input positioned after the temperature array. -/
def parseHourly (s : List Char) : Option (HourlyWeather × List Char) := do
  let r14 ← dropLit ("\n  \x7d,\n  \x22hourly\x22: \x7b\n    \x22time\x22: ".data) s
  let (times, r15) ← parseStrArray r14
  let r16 ← dropLit (",\n    \x22temperature_2m\x22: ".data) r15
  let (temps, r17) ← parseNumArray r16
  some (⟨times, temps⟩, r17)

/-- `JSON.parse` restricted to documents of the exact shape and layout that
`JSON.stringify(·, null, 2)` produces for a `WeatherData` payload: the
structural skeleton is matched literally and the leaf tokens (numbers and
strings, with escapes decoded) are recovered. -/
def parseWeatherData (s : String) : Option WeatherData := do
  let r0 ← dropLit ("\x7b\n  \x22latitude\x22: ".data) s.data
  let (lat, r1) ← scanNumTok r0
  let r2 ← dropLit (",\n  \x22longitude\x22: ".data) r1
  let (lon, r3) ← scanNumTok r2
  let (cur, r13) ← parseCurrent r3
  let (hr, r17) ← parseHourly r13
  let r18 ← dropLit ("\n  \x7d\n\x7d".data) r17
  if r18 = [] then
    some ⟨⟨lat⟩, ⟨lon⟩, cur, hr⟩
  else none

/-- A plausible JSON number lexeme: non-empty and made of number characters
(every decimal form a JS number prints as satisfies this). -/
def wfNum (t : JsNum) : Bool :=
  (! t.data.isEmpty) && t.data.all isNumChar

/-- All numeric leaves of a `current` record are plausible number lexemes. -/
def wfCurrent (c : CurrentWeather) : Bool :=
  wfNum c.temperature_2m && wfNum c.apparent_temperature &&
    wfNum c.is_day && wfNum c.rain

/-- All numeric leaves of a payload are plausible number lexemes. -/
def wfWeatherData (w : WeatherData) : Bool :=
  wfNum w.latitude && wfNum w.longitude && wfCurrent w.current &&
    w.hourly.temperature_2m.all wfNum

/-- The body of `getWeather`, i.e. everything inside the `try` block, as a
function of the input and of the behaviour of the two upstream calls.
Returns what the `try` block does (a returned string or a thrown value)
together with the chronological list of upstream calls performed. -/
def getWeatherTry (input : WeatherInput) (g : FetchBehavior GeocodingResult)
    (f : FetchBehavior WeatherData) : JsOutcome String × List UpstreamCall :=
  match input.city with
  | none => (.value emptyCityMsg, [])
  | some city =>
    if city = "" || jsTrim city = "" then
      (.value emptyCityMsg, [])
    else
      let sanitizedCity := sanitizeInput city
      if sanitizedCity = "" then
        (.value invalidCityMsg, [])
      else
        match g with
        | .throwErr e => (.thrown e, [.geocode sanitizedCity])
        | .resp status statusText body =>
          if ! responseOk status then
            (.value (geoStatusMsg status statusText), [.geocode sanitizedCity])
          else
            match body with
            | .error e => (.thrown e, [.geocode sanitizedCity])
            | .ok geocodeData =>
              match geocodeData.results with
              | none => (.value notFoundMsg, [.geocode sanitizedCity])
              | some [] => (.value notFoundMsg, [.geocode sanitizedCity])
              | some (cand :: _) =>
                let calls := [.geocode sanitizedCity,
                              .forecast cand.latitude cand.longitude]
                match f with
                | .throwErr e => (.thrown e, calls)
                | .resp status2 statusText2 body2 =>
                  if ! responseOk status2 then
                    (.value (weatherStatusMsg status2 statusText2), calls)
                  else
                    match body2 with
                    | .error e => (.thrown e, calls)
                    | .ok weatherData =>
                      (.value (stringifyWeatherData weatherData), calls)

/-- `getWeather`: the `try` block wrapped in the `catch` that converts any
thrown value into the generic error string.  What the caller observes is
the first component; the second is the trace of upstream calls. -/
def getWeather (input : WeatherInput) (g : FetchBehavior GeocodingResult)
    (f : FetchBehavior WeatherData) : JsOutcome String × List UpstreamCall :=
  match getWeatherTry input g f with
  | (.value s, calls) => (.value s, calls)
  | (.thrown e, calls) => (.value (renderCaught e), calls)

/-- `s` starts with `p` (on the underlying character lists). -/
def strStartsWith (s p : String) : Bool :=
  p.data.isPrefixOf s.data

/-- `n` occurs as a contiguous sublist of `h`. -/
def infixOf : List Char → List Char → Bool
  | n, [] => n.isEmpty
  | n, c :: t => n.isPrefixOf (c :: t) || infixOf n t

/-- No character of `s` is one of the blocked characters `< > ' " ; & ( )`. -/
def noBlocked (s : String) : Bool :=
  s.data.all (fun c => ! blockedChars.contains c)

/-- A thrown value whose rendered message is free of blocked characters. -/
def errClean : JsError → Bool
  | .error m => noBlocked m
  | .nonError => true

/-- An upstream behaviour whose texts (status text, thrown messages) are
free of blocked characters; the numeric status is not constrained. -/
def fetchClean {α : Type} : FetchBehavior α → Bool
  | .throwErr e => errClean e
  | .resp _ statusText body =>
      noBlocked statusText &&
        (match body with
         | .error e => errClean e
         | .ok _ => true)

/-- The run reaches the final `JSON.stringify` (every guard and both
upstream calls succeed, and the geocoding body has at least one result). -/
def isSuccessRun (input : WeatherInput) (g : FetchBehavior GeocodingResult)
    (f : FetchBehavior WeatherData) : Bool :=
  match input.city with
  | none => false
  | some city =>
    if city = "" || jsTrim city = "" then false
    else if sanitizeInput city = "" then false
    else
      match g with
      | .throwErr _ => false
      | .resp st _ body =>
        if ! responseOk st then false
        else
          match body with
          | .error _ => false
          | .ok gd =>
            match gd.results with
            | none => false
            | some [] => false
            | some (_ :: _) =>
              match f with
              | .throwErr _ => false
              | .resp st2 _ body2 =>
                if ! responseOk st2 then false
                else
                  match body2 with
                  | .error _ => false
                  | .ok _ => true

/-- A 101-character city name, used to exercise the truncation path. -/
def overlongCity : String :=
  ⟨List.replicate 101 'a'⟩

/-- A sample forecast payload (used to instantiate success-path claims). -/
def wLondon : WeatherData :=
  ⟨"51.5", "-0.12",
    ⟨"2024-01-01T00:00", "10.2", "9.4", "1", "0"⟩,
    ⟨["2024-01-01T00:00"], ["10.2"]⟩⟩

/-! ### Serialisation round-trip: token-level lemmas -/

lemma mk_data (s : String) : String.mk s.data = s := by
  cases s
  rfl

lemma data_escapeString (s : String) : (escapeString s).data = escList s.data := rfl

lemma dropLit_self (lit r : List Char) : dropLit lit (lit ++ r) = some r := by
  induction lit with
  | nil => rfl
  | cons c cs ih => simp [dropLit, ih]

lemma takeWhile_append_of_all (tok : List Char) (c : Char) (r : List Char)
    (h1 : tok.all isNumChar = true) (h3 : isNumChar c = false) :
    (tok ++ c :: r).takeWhile isNumChar = tok := by
  induction tok with
  | nil => simp [List.takeWhile_cons, h3]
  | cons d ds ih =>
      simp only [List.all_cons, Bool.and_eq_true] at h1
      simp [List.takeWhile_cons, h1.1, ih h1.2]

lemma dropWhile_append_of_all (tok : List Char) (c : Char) (r : List Char)
    (h1 : tok.all isNumChar = true) (h3 : isNumChar c = false) :
    (tok ++ c :: r).dropWhile isNumChar = c :: r := by
  induction tok with
  | nil => simp [List.dropWhile_cons, h3]
  | cons d ds ih =>
      simp only [List.all_cons, Bool.and_eq_true] at h1
      simp [List.dropWhile_cons, h1.1, ih h1.2]

lemma scanNumTok_append (tok : List Char) (c : Char) (r : List Char)
    (h1 : tok.all isNumChar = true) (h2 : tok ≠ []) (h3 : isNumChar c = false) :
    scanNumTok (tok ++ c :: r) = some (tok, c :: r) := by
  unfold scanNumTok
  rw [takeWhile_append_of_all tok c r h1 h3, dropWhile_append_of_all tok c r h1 h3]
  cases tok with
  | nil => exact absurd rfl h2
  | cons d ds => rfl

lemma hexVal_hexDigitChar : ∀ m, m < 16 → hexVal (hexDigitChar m) = some m := by
  decide

lemma hexVal_zero : hexVal '0' = some 0 := by
  decide

lemma one_le_escChar_length (c : Char) : 1 ≤ (escChar c).length := by
  unfold escChar
  split_ifs <;> simp

lemma length_le_escList (l : List Char) : l.length ≤ (escList l).length := by
  induction l with
  | nil => simp [escList]
  | cons c cs ih =>
      simp only [escList, List.map_cons, List.flatten_cons, List.length_append,
        List.length_cons] at ih ⊢
      have := one_le_escChar_length c
      omega

lemma scanJsonString_escList (l : List Char) : ∀ (fuel : Nat) (r : List Char),
    l.length + 1 ≤ fuel →
    scanJsonString fuel (escList l ++ '\x22' :: r) = some (l, r) := by
  induction l with
  | nil =>
      intro fuel r h
      obtain ⟨f, rfl⟩ : ∃ f, fuel = f + 1 := ⟨fuel - 1, by omega⟩
      simp [escList, scanJsonString]
  | cons c cs ih =>
      intro fuel r h
      obtain ⟨f, rfl⟩ : ∃ f, fuel = f + 1 := ⟨fuel - 1, by omega⟩
      have hf : cs.length + 1 ≤ f := by
        simp only [List.length_cons] at h
        omega
      have hih := ih f r hf
      have hesc : escList (c :: cs) ++ '\x22' :: r
          = escChar c ++ (escList cs ++ '\x22' :: r) := by
        simp [escList]
      rw [hesc]
      by_cases h1 : c = '\x22'
      · subst h1
        simp [escChar, scanJsonString, hih]
      · by_cases h2 : c = '\\'
        · subst h2
          simp [escChar, scanJsonString, hih]
        · by_cases h3 : c = '\x08'
          · subst h3
            simp [escChar, scanJsonString, hih]
          · by_cases h4 : c = '\x0c'
            · subst h4
              simp [escChar, scanJsonString, hih]
            · by_cases h5 : c = '\n'
              · subst h5
                simp [escChar, scanJsonString, hih]
              · by_cases h6 : c = '\r'
                · subst h6
                  simp [escChar, scanJsonString, hih]
                · by_cases h7 : c = '\t'
                  · subst h7
                    simp [escChar, scanJsonString, hih]
                  · by_cases h8 : c.toNat < 32
                    · have hdiv : c.toNat / 16 < 16 := by omega
                      have hmod : c.toNat % 16 < 16 := Nat.mod_lt _ (by norm_num)
                      simp only [escChar, h1, h2, h3, h4, h5, h6, h7, h8, if_true,
                        if_false, ite_true, ite_false, if_neg, if_pos,
                        List.cons_append, List.nil_append]
                      simp [scanJsonString, hih, hexVal_hexDigitChar _ hdiv,
                        hexVal_hexDigitChar _ hmod, hexVal_zero, Nat.div_add_mod,
                        Char.ofNat_toNat]
                    · simp only [escChar, h1, h2, h3, h4, h5, h6, h7, h8,
                        List.cons_append, List.nil_append, if_false, ite_false]
                      simp [scanJsonString, hih, h1, h2]

lemma scanStr_escList (l r : List Char) :
    scanStr (escList l ++ '\x22' :: r) = some (l, r) := by
  unfold scanStr
  apply scanJsonString_escList
  have := length_le_escList l
  simp only [List.length_append, List.length_cons]
  omega

lemma wfNum_spec (t : JsNum) (h : wfNum t = true) :
    t.data.all isNumChar = true ∧ t.data ≠ [] := by
  unfold wfNum at h
  rw [Bool.and_eq_true] at h
  refine ⟨h.2, ?_⟩
  intro hnil
  rw [hnil] at h
  simp at h

lemma data_q : ("\x22" : String).data = ['\x22'] := rfl

lemma data_qcnl : ("\x22,\n" : String).data = ['\x22', ',', '\n'] := rfl

lemma data_cnl : (",\n" : String).data = [',', '\n'] := rfl

lemma data_closeArr : ("\n    ]" : String).data = ['\n', ' ', ' ', ' ', ' ', ']'] := rfl

lemma data_openArr : ("[\n" : String).data = ['[', '\n'] := rfl

lemma data_brk : ("[]" : String).data = ['[', ']'] := rfl

lemma parseStrArrElems_round (x : String) (xs : List String) :
    ∀ (fuel : Nat) (r : List Char), (x :: xs).length ≤ fuel →
      parseStrArrElems fuel
        ((strArrElemsStr (x :: xs)).data ++ '\n' :: ' ' :: ' ' :: ' ' :: ' ' :: ']' :: r)
        = some (x :: xs, r) := by
  induction xs generalizing x with
  | nil =>
      intro fuel r hfuel
      simp only [List.length_cons, List.length_nil] at hfuel
      obtain ⟨f, rfl⟩ : ∃ f, fuel = f + 1 := ⟨fuel - 1, by omega⟩
      simp only [strArrElemsStr, String.data_append, List.append_assoc,
        data_escapeString, data_q, List.cons_append, List.nil_append,
        List.singleton_append]
      simp only [parseStrArrElems, dropLit_self, Option.bind_eq_bind,
        Option.some_bind]
      simp [scanStr_escList, data_cnl, data_closeArr, dropLit, mk_data]
  | cons y ys ih =>
      intro fuel r hfuel
      simp only [List.length_cons] at hfuel
      obtain ⟨f, rfl⟩ : ∃ f, fuel = f + 1 := ⟨fuel - 1, by omega⟩
      have hf : (y :: ys).length ≤ f := by
        simp only [List.length_cons]
        omega
      simp only [strArrElemsStr, String.data_append, List.append_assoc,
        data_escapeString, data_qcnl, List.cons_append, List.nil_append]
      simp only [parseStrArrElems, dropLit_self, Option.bind_eq_bind,
        Option.some_bind]
      simp [scanStr_escList, data_cnl, dropLit, ih y f r hf, mk_data]

lemma parseNumArrElems_round (x : JsNum) (xs : List JsNum) :
    ∀ (fuel : Nat) (r : List Char),
      (x :: xs).length ≤ fuel → (x :: xs).all wfNum = true →
      parseNumArrElems fuel
        ((numArrElemsStr (x :: xs)).data ++ '\n' :: ' ' :: ' ' :: ' ' :: ' ' :: ']' :: r)
        = some (x :: xs, r) := by
  induction xs generalizing x with
  | nil =>
      intro fuel r hfuel hwf
      simp only [List.length_cons, List.length_nil] at hfuel
      obtain ⟨f, rfl⟩ : ∃ f, fuel = f + 1 := ⟨fuel - 1, by omega⟩
      simp only [List.all_cons, List.all_nil, Bool.and_true] at hwf
      obtain ⟨hall, hne⟩ := wfNum_spec x hwf
      simp only [numArrElemsStr, String.data_append, List.append_assoc,
        List.cons_append, List.nil_append]
      simp [parseNumArrElems, dropLit]
      rw [scanNumTok_append x.data '\n' _ hall hne (by decide)]
      simp [dropLit, mk_data]
  | cons y ys ih =>
      intro fuel r hfuel hwf
      simp only [List.length_cons] at hfuel
      obtain ⟨f, rfl⟩ : ∃ f, fuel = f + 1 := ⟨fuel - 1, by omega⟩
      have hf : (y :: ys).length ≤ f := by
        simp only [List.length_cons]
        omega
      simp only [List.all_cons, Bool.and_eq_true] at hwf
      obtain ⟨hall, hne⟩ := wfNum_spec x hwf.1
      have hwf2 : (y :: ys).all wfNum = true := by
        simp only [List.all_cons, Bool.and_eq_true]
        exact hwf.2
      simp only [numArrElemsStr, String.data_append, List.append_assoc, data_cnl,
        List.cons_append, List.nil_append]
      simp [parseNumArrElems, dropLit]
      rw [scanNumTok_append x.data ',' _ hall hne (by decide)]
      simp [dropLit, ih y f r hf hwf2, mk_data]

lemma len_le_strArrElems (x : String) (xs : List String) :
    (x :: xs).length ≤ ((strArrElemsStr (x :: xs)).data).length := by
  induction xs generalizing x with
  | nil =>
      simp [strArrElemsStr, String.data_append]
  | cons y ys ih =>
      have h2 := ih y
      have he : strArrElemsStr (x :: y :: ys)
          = "      \x22" ++ escapeString x ++ "\x22,\n" ++ strArrElemsStr (y :: ys) := rfl
      rw [he]
      simp only [List.length_cons] at h2 ⊢
      simp [String.data_append, List.length_append]
      simp at h2
      omega

lemma len_le_numArrElems (x : JsNum) (xs : List JsNum) :
    (x :: xs).length ≤ ((numArrElemsStr (x :: xs)).data).length := by
  induction xs generalizing x with
  | nil =>
      simp [numArrElemsStr, String.data_append]
  | cons y ys ih =>
      have h2 := ih y
      have he : numArrElemsStr (x :: y :: ys)
          = "      " ++ x ++ ",\n" ++ numArrElemsStr (y :: ys) := rfl
      rw [he]
      simp only [List.length_cons] at h2 ⊢
      simp [String.data_append, List.length_append]
      simp at h2
      omega

lemma parseStrArray_round (xs : List String) (r : List Char) :
    parseStrArray ((strArrStr xs).data ++ r) = some (xs, r) := by
  cases xs with
  | nil =>
      simp [strArrStr, parseStrArray, dropLit]
  | cons x xs =>
      simp only [strArrStr, String.data_append, List.append_assoc,
        List.cons_append, List.nil_append]
      simp [parseStrArray, dropLit]
      refine parseStrArrElems_round x xs _ r ?_
      have := len_le_strArrElems x xs
      simp only [List.length_cons] at this ⊢
      simp only [String.length] at this ⊢
      omega


lemma parseNumArray_round (xs : List JsNum) (r : List Char)
    (hwf : xs.all wfNum = true) :
    parseNumArray ((numArrStr xs).data ++ r) = some (xs, r) := by
  cases xs with
  | nil =>
      simp [numArrStr, parseNumArray, dropLit]
  | cons x xs =>
      simp only [numArrStr, String.data_append, List.append_assoc,
        List.cons_append, List.nil_append]
      simp [parseNumArray, dropLit]
      refine parseNumArrElems_round x xs _ r ?_ hwf
      have := len_le_numArrElems x xs
      simp only [List.length_cons] at this ⊢
      simp only [String.length] at this ⊢
      omega

lemma isNumChar_comma : isNumChar ',' = false := by
  decide

lemma isNumChar_nl : isNumChar '\n' = false := by
  decide

lemma dropLit_all (l : List Char) : dropLit l l = some [] := by
  simpa using dropLit_self l []

lemma data_lonLit : (",\n  \x22longitude\x22: " : String).data
    = ',' :: ("\n  \x22longitude\x22: " : String).data := rfl

lemma data_curLit : (",\n  \x22current\x22: \x7b\n    \x22time\x22: \x22" : String).data
    = ',' :: ("\n  \x22current\x22: \x7b\n    \x22time\x22: \x22" : String).data := rfl

lemma data_appLit : (",\n    \x22apparent_temperature\x22: " : String).data
    = ',' :: ("\n    \x22apparent_temperature\x22: " : String).data := rfl

lemma data_isdLit : (",\n    \x22is_day\x22: " : String).data
    = ',' :: ("\n    \x22is_day\x22: " : String).data := rfl

lemma data_rainLit : (",\n    \x22rain\x22: " : String).data
    = ',' :: ("\n    \x22rain\x22: " : String).data := rfl

lemma data_hourlyLit : ("\n  \x7d,\n  \x22hourly\x22: \x7b\n    \x22time\x22: " : String).data
    = '\n' :: ("  \x7d,\n  \x22hourly\x22: \x7b\n    \x22time\x22: " : String).data := rfl

set_option maxRecDepth 8192 in
set_option maxHeartbeats 1000000 in
lemma parse_stringify (w : WeatherData) (h : wfWeatherData w = true) :
    parseWeatherData (stringifyWeatherData w) = some w := by
  unfold wfWeatherData wfCurrent at h
  rw [Bool.and_eq_true, Bool.and_eq_true, Bool.and_eq_true, Bool.and_eq_true,
    Bool.and_eq_true, Bool.and_eq_true] at h
  obtain ⟨⟨⟨hlat, hlon⟩, ⟨⟨ht2m, happ⟩, hisd⟩, hrain⟩, htemps⟩ := h
  obtain ⟨hlat_all, hlat_ne⟩ := wfNum_spec _ hlat
  obtain ⟨hlon_all, hlon_ne⟩ := wfNum_spec _ hlon
  obtain ⟨ht2m_all, ht2m_ne⟩ := wfNum_spec _ ht2m
  obtain ⟨happ_all, happ_ne⟩ := wfNum_spec _ happ
  obtain ⟨hisd_all, hisd_ne⟩ := wfNum_spec _ hisd
  obtain ⟨hrain_all, hrain_ne⟩ := wfNum_spec _ hrain
  simp only [parseWeatherData, parseCurrent, parseHourly, Option.bind_eq_bind,
    Option.some_bind, stringifyWeatherData, currentChunkStr, hourlyChunkStr,
    String.data_append, data_escapeString, List.append_eq, List.append_assoc,
    List.cons_append, List.nil_append, List.singleton_append]
  simp only [dropLit, reduceIte, Option.bind_eq_bind, Option.some_bind,
    scanStr_escList, scanNumTok_append, parseStrArray_round,
    parseNumArray_round, hlat_all, hlat_ne, hlon_all, hlon_ne, ht2m_all,
    ht2m_ne, happ_all, happ_ne, hisd_all, hisd_ne, hrain_all, hrain_ne,
    htemps, isNumChar_comma, isNumChar_nl, mk_data, ne_eq,
    not_false_eq_true]

/-! ### Input-guard helper lemmas -/

lemma jsTrim_empty_iff (s : String) :
    jsTrim s = "" ↔ ∀ c ∈ s.data, isJsSpace c = true := by
  unfold jsTrim
  rw [show ("" : String) = ⟨[]⟩ from rfl, String.ext_iff]
  constructor
  · intro h c hc
    simp only [List.reverse_eq_nil_iff] at h
    have h2 : ∀ c ∈ (s.data.dropWhile isJsSpace).reverse, isJsSpace c = true := by
      rw [← List.dropWhile_eq_nil_iff]
      exact h
    have h3 : ∀ c ∈ s.data.dropWhile isJsSpace, isJsSpace c = true := by
      intro c hc2
      exact h2 c (List.mem_reverse.mpr hc2)
    have hsplit : c ∈ s.data.takeWhile isJsSpace ++ s.data.dropWhile isJsSpace := by
      rw [List.takeWhile_append_dropWhile]
      exact hc
    rcases List.mem_append.mp hsplit with hmem | hmem
    · exact List.mem_takeWhile_imp hmem
    · exact h3 c hmem
  · intro h
    have h1 : s.data.dropWhile isJsSpace = [] := List.dropWhile_eq_nil_iff.mpr h
    simp [h1]

lemma isJsSpace_not_blocked (c : Char) (h : isJsSpace c = true) :
    (! blockedChars.contains c) = true := by
  simp only [isJsSpace, Bool.or_eq_true, decide_eq_true_eq] at h
  rcases h with ((((h | h) | h) | h) | h) | h <;> subst h <;> decide

lemma stripBlocked_all_space (s : String)
    (h : ∀ c ∈ s.data, isJsSpace c = true) : stripBlocked s = s := by
  unfold stripBlocked
  rw [String.ext_iff]
  exact List.filter_eq_self.mpr (fun c hc => isJsSpace_not_blocked c (h c hc))

lemma sanitize_valid (city : String) (hs : sanitizeInput city ≠ "") :
    (city = "" || jsTrim city = "") = false := by
  have h1 : city ≠ "" := by
    intro h
    exact hs (by rw [h]; rfl)
  have h2 : jsTrim city ≠ "" := by
    intro h
    apply hs
    have hall := (jsTrim_empty_iff city).mp h
    unfold sanitizeInput
    rw [stripBlocked_all_space city hall, h]
    rfl
  simp [h1, h2]

/-! ### Claim theorems -/

/-- C1.  Totality of the pipeline boundary: whatever the input and whatever
the two upstream `fetch` calls do (throw, non-success status, malformed
body, success), `getWeather` returns a `.value` string — the outer `catch`
leaves no thrown value uncaught. -/
theorem getWeather_total (input : WeatherInput) (g : FetchBehavior GeocodingResult)
    (f : FetchBehavior WeatherData) :
    ∃ s : String, (getWeather input g f).1 = JsOutcome.value s := by
  unfold getWeather
  rcases h : getWeatherTry input g f with ⟨o, calls⟩
  cases o with
  | value s => exact ⟨s, by simp [h]⟩
  | thrown e => exact ⟨renderCaught e, by simp [h]⟩

/-- C2 (counterexample).  On the empty city the pipeline returns the fixed
string `Error: City name cannot be empty`, which is not the string
`city name cannot be empty` the claim names. -/
theorem emptyCity_message_counterexample :
    (getWeather ⟨some ""⟩ (.resp 200 "OK" (.ok ⟨some []⟩))
        (.resp 200 "OK" (.error .nonError))).1
      = .value "Error: City name cannot be empty"
    ∧ ("Error: City name cannot be empty" : String) ≠ "city name cannot be empty" := by
  exact ⟨rfl, by decide⟩

/-- C2 (amended).  For absent, empty or whitespace-only city input the
result is exactly `Error: City name cannot be empty` and no upstream call
is made. -/
theorem getWeather_emptyCity (input : WeatherInput) (g : FetchBehavior GeocodingResult)
    (f : FetchBehavior WeatherData)
    (h : input.city = none ∨ ∃ c, input.city = some c ∧ jsTrim c = "") :
    getWeather input g f = (.value emptyCityMsg, []) := by
  rcases h with h | ⟨c, hc, ht⟩
  · simp [getWeather, getWeatherTry, h]
  · simp [getWeather, getWeatherTry, hc, ht]

theorem getWeather_emptyCity_witness :
    getWeather ⟨some "   "⟩ (.throwErr .nonError) (.throwErr .nonError)
      = (.value emptyCityMsg, []) :=
  getWeather_emptyCity _ _ _ (Or.inr ⟨"   ", rfl, by decide⟩)

/-- C3 (counterexample).  On a city of blocked characters only, the
pipeline returns the fixed string `Error: Invalid city name provided`,
which is not the string `invalid city name provided` the claim names. -/
theorem invalidCity_message_counterexample :
    (getWeather ⟨some "<><><>"⟩ (.resp 200 "OK" (.ok ⟨some []⟩))
        (.resp 200 "OK" (.error .nonError))).1
      = .value "Error: Invalid city name provided"
    ∧ ("Error: Invalid city name provided" : String) ≠ "invalid city name provided" := by
  exact ⟨rfl, by decide⟩

/-- C3 (amended).  For a non-empty (not whitespace-only) input whose city
sanitizes to the empty string, the result is exactly
`Error: Invalid city name provided` and no upstream call is made. -/
theorem getWeather_invalidCity (input : WeatherInput) (g : FetchBehavior GeocodingResult)
    (f : FetchBehavior WeatherData) (city : String)
    (h1 : input.city = some city) (h2 : jsTrim city ≠ "")
    (h3 : sanitizeInput city = "") :
    getWeather input g f = (.value invalidCityMsg, []) := by
  have hne : city ≠ "" := by
    intro h
    apply h2
    rw [h]
    rfl
  simp [getWeather, getWeatherTry, h1, h2, h3, hne]

theorem getWeather_invalidCity_witness :
    getWeather ⟨some "<><><>"⟩ (.throwErr .nonError) (.throwErr .nonError)
      = (.value invalidCityMsg, []) :=
  getWeather_invalidCity _ _ _ "<><><>" rfl (by decide) (by decide)

/-- C6.  For a valid city, when the geocoding call returns a success status
and a body whose `results` is absent or empty, the result is exactly the
fixed not-found message and the forecast upstream is never called (the
trace holds the geocoding call only). -/
theorem getWeather_cityNotFound (input : WeatherInput) (g : FetchBehavior GeocodingResult)
    (f : FetchBehavior WeatherData) (city : String) (st : Nat) (t : String)
    (res : Option (List GeoCandidate))
    (h1 : input.city = some city) (h2 : sanitizeInput city ≠ "")
    (hg : g = .resp st t (.ok ⟨res⟩)) (hok : responseOk st = true)
    (hres : res = none ∨ res = some []) :
    getWeather input g f
      = (.value notFoundMsg, [.geocode (sanitizeInput city)]) := by
  have hv := sanitize_valid city h2
  rcases hres with h | h <;>
    simp [getWeather, getWeatherTry, h1, h2, hg, hok, hv, h]

theorem getWeather_cityNotFound_witness :
    getWeather ⟨some "NonExistentCity123"⟩ (.resp 200 "OK" (.ok ⟨some []⟩))
        (.throwErr .nonError)
      = (.value notFoundMsg, [.geocode "NonExistentCity123"]) :=
  getWeather_cityNotFound _ _ _ "NonExistentCity123" 200 "OK" (some [])
    rfl (by decide) rfl (by decide) (Or.inr rfl)

/-- C7.  `sanitizeInput` strips the blocked characters, trims, then
truncates to 100 characters, in that order; its output never contains a
blocked character and has length at most 100. -/
theorem sanitizeInput_spec (s : String) :
    (∀ c ∈ (sanitizeInput s).data, c ∉ blockedChars)
    ∧ (sanitizeInput s).data.length ≤ 100
    ∧ sanitizeInput s = jsSubstring0 100 (jsTrim (stripBlocked s)) := by
  refine ⟨?_, ?_, rfl⟩
  · intro c hc
    have h1 : c ∈ (jsTrim (stripBlocked s)).data := by
      have := List.take_subset 100 (jsTrim (stripBlocked s)).data
      exact this hc
    have h2 : c ∈ (stripBlocked s).data := by
      unfold jsTrim at h1
      simp only [List.mem_reverse] at h1
      have h3 := (List.dropWhile_sublist _).subset h1
      simp only [List.mem_reverse] at h3
      exact (List.dropWhile_sublist _).subset h3
    unfold stripBlocked at h2
    have h4 := List.of_mem_filter h2
    simpa using h4
  · have := List.length_take_le 100 (jsTrim (stripBlocked s)).data
    exact this

/-- C8.  Round trip on the success path: when validation passes and both
upstream calls succeed (the geocoding body holding at least one candidate),
the response is exactly the forecast payload serialised as indented JSON,
and parsing that text back recovers a payload structurally equal to what
the forecast upstream returned. -/
theorem getWeather_roundTrip (input : WeatherInput) (g : FetchBehavior GeocodingResult)
    (f : FetchBehavior WeatherData) (city : String) (st st2 : Nat) (t t2 : String)
    (cand : GeoCandidate) (rest : List GeoCandidate) (w : WeatherData)
    (h1 : input.city = some city) (h2 : sanitizeInput city ≠ "")
    (hg : g = .resp st t (.ok ⟨some (cand :: rest)⟩)) (hok : responseOk st = true)
    (hf : f = .resp st2 t2 (.ok w)) (hok2 : responseOk st2 = true)
    (hw : wfWeatherData w = true) :
    (getWeather input g f).1 = .value (stringifyWeatherData w)
    ∧ parseWeatherData (stringifyWeatherData w) = some w := by
  constructor
  · have hv := sanitize_valid city h2
    simp [getWeather, getWeatherTry, h1, h2, hg, hok, hf, hok2, hv]
  · exact parse_stringify w hw

theorem getWeather_roundTrip_witness :
    (getWeather ⟨some "London"⟩
        (.resp 200 "OK" (.ok ⟨some [⟨"51.5074", "-0.1278", "London", "GB"⟩]⟩))
        (.resp 200 "OK" (.ok wLondon))).1
      = .value (stringifyWeatherData wLondon)
    ∧ parseWeatherData (stringifyWeatherData wLondon) = some wLondon :=
  getWeather_roundTrip _ _ _ "London" 200 200 "OK" "OK"
    ⟨"51.5074", "-0.1278", "London", "GB"⟩ [] wLondon
    rfl (by decide) rfl (by decide) rfl (by decide) (by decide)

/-- C9.  An over-long input is never rejected for length: when the
stripped-and-trimmed city exceeds 100 characters, the sanitized city is its
100-character truncation, and the run proceeds to the geocoding call with
that truncated city (the first upstream call in the trace is the geocoding
lookup with the truncation, for every upstream behaviour). -/
theorem getWeather_overlongInput (city : String) (g : FetchBehavior GeocodingResult)
    (f : FetchBehavior WeatherData)
    (h : 100 < (jsTrim (stripBlocked city)).data.length) :
    (getWeather ⟨some city⟩ g f).2.head?
      = some (.geocode (jsSubstring0 100 (jsTrim (stripBlocked city))))
    ∧ (sanitizeInput city).data.length = 100 := by
  have hlen : (sanitizeInput city).data.length = 100 := by
    show ((jsTrim (stripBlocked city)).data.take 100).length = 100
    rw [List.length_take]
    omega
  have hs : sanitizeInput city ≠ "" := by
    intro he
    rw [he] at hlen
    simp at hlen
  have hv := sanitize_valid city hs
  refine ⟨?_, hlen⟩
  have hgoal : jsSubstring0 100 (jsTrim (stripBlocked city)) = sanitizeInput city := rfl
  rw [hgoal]
  rcases g with e | ⟨st, t, body⟩
  · simp [getWeather, getWeatherTry, hv, hs]
  · by_cases hok : responseOk st
    · rcases body with e | ⟨res⟩
      · simp [getWeather, getWeatherTry, hv, hs, hok]
      · rcases res with _ | l
        · simp [getWeather, getWeatherTry, hv, hs, hok]
        · rcases l with _ | ⟨c0, cs⟩
          · simp [getWeather, getWeatherTry, hv, hs, hok]
          · rcases f with e2 | ⟨st2, t2, body2⟩
            · simp [getWeather, getWeatherTry, hv, hs, hok]
            · by_cases hok2 : responseOk st2
              · rcases body2 with e2 | w
                · simp [getWeather, getWeatherTry, hv, hs, hok, hok2]
                · simp [getWeather, getWeatherTry, hv, hs, hok, hok2]
              · simp [getWeather, getWeatherTry, hv, hs, hok, hok2]
    · simp [getWeather, getWeatherTry, hv, hs, hok]

theorem getWeather_overlongInput_witness :
    (getWeather ⟨some overlongCity⟩ (.throwErr .nonError) (.throwErr .nonError)).2.head?
      = some (.geocode (jsSubstring0 100 (jsTrim (stripBlocked overlongCity))))
    ∧ (sanitizeInput overlongCity).data.length = 100 :=
  getWeather_overlongInput overlongCity _ _ (by decide)

/-! ### Message-shape helper lemmas -/

lemma isPrefixOf_append (p a b : List Char) (h : p.isPrefixOf a = true) :
    p.isPrefixOf (a ++ b) = true := by
  induction p generalizing a with
  | nil => simp [List.isPrefixOf]
  | cons c p ih =>
      cases a with
      | nil => simp [List.isPrefixOf] at h
      | cons d a2 =>
          rw [List.cons_append]
          rw [show ((c :: p).isPrefixOf (d :: (a2 ++ b)))
              = ((c == d) && p.isPrefixOf (a2 ++ b)) from rfl]
          rw [show ((c :: p).isPrefixOf (d :: a2))
              = ((c == d) && p.isPrefixOf a2) from rfl] at h
          rw [Bool.and_eq_true] at h ⊢
          exact ⟨h.1, ih a2 h.2⟩

lemma eError : strStartsWith emptyCityMsg "Error" = true := by decide

lemma eBrace : strStartsWith emptyCityMsg "\x7b" = false := by decide

lemma iError : strStartsWith invalidCityMsg "Error" = true := by decide

lemma iBrace : strStartsWith invalidCityMsg "\x7b" = false := by decide

lemma nError : strStartsWith notFoundMsg "Error" = true := by decide

lemma nBrace : strStartsWith notFoundMsg "\x7b" = false := by decide

lemma gError (st : Nat) (t : String) :
    strStartsWith (geoStatusMsg st t) "Error" = true := by
  unfold strStartsWith geoStatusMsg
  simp only [String.data_append, List.append_assoc]
  exact isPrefixOf_append _ _ _ (by decide)

lemma gBrace (st : Nat) (t : String) :
    strStartsWith (geoStatusMsg st t) "\x7b" = false := by
  unfold strStartsWith geoStatusMsg
  simp only [String.data_append, List.append_assoc]
  simp [List.isPrefixOf]

lemma wError (st : Nat) (t : String) :
    strStartsWith (weatherStatusMsg st t) "Error" = true := by
  unfold strStartsWith weatherStatusMsg
  simp only [String.data_append, List.append_assoc]
  exact isPrefixOf_append _ _ _ (by decide)

lemma wBrace (st : Nat) (t : String) :
    strStartsWith (weatherStatusMsg st t) "\x7b" = false := by
  unfold strStartsWith weatherStatusMsg
  simp only [String.data_append, List.append_assoc]
  simp [List.isPrefixOf]

lemma cError (e : JsError) : strStartsWith (renderCaught e) "Error" = true := by
  unfold strStartsWith renderCaught
  simp only [String.data_append, List.append_assoc]
  exact isPrefixOf_append _ _ _ (by decide)

lemma cBrace (e : JsError) : strStartsWith (renderCaught e) "\x7b" = false := by
  unfold strStartsWith renderCaught
  simp only [String.data_append, List.append_assoc]
  simp [List.isPrefixOf]

lemma sError (w : WeatherData) :
    strStartsWith (stringifyWeatherData w) "Error" = false := by
  unfold strStartsWith stringifyWeatherData
  simp only [String.data_append, List.append_assoc]
  simp [List.isPrefixOf]

lemma sBrace (w : WeatherData) :
    strStartsWith (stringifyWeatherData w) "\x7b" = true := by
  unfold strStartsWith stringifyWeatherData
  simp only [String.data_append, List.append_assoc]
  exact isPrefixOf_append _ _ _ (by decide)

/-- C10.  Error and success responses are distinguishable by prefix: on
every failure path the response starts with the literal `Error`, and on the
success path it is a pretty-printed JSON object starting with the opening
brace (and therefore not with `Error`). -/
theorem getWeather_error_prefix (input : WeatherInput) (g : FetchBehavior GeocodingResult)
    (f : FetchBehavior WeatherData) :
    ∃ s, (getWeather input g f).1 = .value s
      ∧ strStartsWith s "Error" = ! isSuccessRun input g f
      ∧ strStartsWith s "\x7b" = isSuccessRun input g f := by
  rcases input with ⟨city⟩
  rcases city with _ | c
  · exact ⟨emptyCityMsg, rfl, by simp [isSuccessRun, eError],
      by simp [isSuccessRun, eBrace]⟩
  cases hveq : (c = "" || jsTrim c = "") with
  | true =>
      exact ⟨emptyCityMsg, by simp [getWeather, getWeatherTry, hveq],
        by simp [isSuccessRun, hveq, eError],
        by simp [isSuccessRun, hveq, eBrace]⟩
  | false =>
  by_cases hsan : sanitizeInput c = ""
  · exact ⟨invalidCityMsg, by simp [getWeather, getWeatherTry, hveq, hsan],
      by simp [isSuccessRun, hveq, hsan, iError],
      by simp [isSuccessRun, hveq, hsan, iBrace]⟩
  rcases g with e | ⟨st, t, body⟩
  · exact ⟨renderCaught e, by simp [getWeather, getWeatherTry, hveq, hsan],
      by simp [isSuccessRun, hveq, hsan, cError],
      by simp [isSuccessRun, hveq, hsan, cBrace]⟩
  cases hok : responseOk st with
  | false =>
      exact ⟨geoStatusMsg st t,
        by simp [getWeather, getWeatherTry, hveq, hsan, hok],
        by simp [isSuccessRun, hveq, hsan, hok, gError],
        by simp [isSuccessRun, hveq, hsan, hok, gBrace]⟩
  | true =>
  rcases body with e | ⟨res⟩
  · exact ⟨renderCaught e,
      by simp [getWeather, getWeatherTry, hveq, hsan, hok],
      by simp [isSuccessRun, hveq, hsan, hok, cError],
      by simp [isSuccessRun, hveq, hsan, hok, cBrace]⟩
  rcases res with _ | l
  · exact ⟨notFoundMsg,
      by simp [getWeather, getWeatherTry, hveq, hsan, hok],
      by simp [isSuccessRun, hveq, hsan, hok, nError],
      by simp [isSuccessRun, hveq, hsan, hok, nBrace]⟩
  rcases l with _ | ⟨c0, cs⟩
  · exact ⟨notFoundMsg,
      by simp [getWeather, getWeatherTry, hveq, hsan, hok],
      by simp [isSuccessRun, hveq, hsan, hok, nError],
      by simp [isSuccessRun, hveq, hsan, hok, nBrace]⟩
  rcases f with e2 | ⟨st2, t2, body2⟩
  · exact ⟨renderCaught e2,
      by simp [getWeather, getWeatherTry, hveq, hsan, hok],
      by simp [isSuccessRun, hveq, hsan, hok, cError],
      by simp [isSuccessRun, hveq, hsan, hok, cBrace]⟩
  cases hok2 : responseOk st2 with
  | false =>
      exact ⟨weatherStatusMsg st2 t2,
        by simp [getWeather, getWeatherTry, hveq, hsan, hok, hok2],
        by simp [isSuccessRun, hveq, hsan, hok, hok2, wError],
        by simp [isSuccessRun, hveq, hsan, hok, hok2, wBrace]⟩
  | true =>
  rcases body2 with e2 | w
  · exact ⟨renderCaught e2,
      by simp [getWeather, getWeatherTry, hveq, hsan, hok, hok2],
      by simp [isSuccessRun, hveq, hsan, hok, hok2, cError],
      by simp [isSuccessRun, hveq, hsan, hok, hok2, cBrace]⟩
  · exact ⟨stringifyWeatherData w,
      by simp [getWeather, getWeatherTry, hveq, hsan, hok, hok2],
      by simp [isSuccessRun, hveq, hsan, hok, hok2, sError],
      by simp [isSuccessRun, hveq, hsan, hok, hok2, sBrace]⟩

/-! ### Blocked-character helper lemmas -/

lemma toDigitsCore_noBlocked :
    ∀ (fuel n : Nat) (acc : List Char),
      (∀ c ∈ acc, (! blockedChars.contains c) = true) →
      ∀ c ∈ Nat.toDigitsCore 10 fuel n acc, (! blockedChars.contains c) = true := by
  intro fuel
  induction fuel with
  | zero =>
      intro n acc hacc c hc
      simp only [Nat.toDigitsCore] at hc
      exact hacc c hc
  | succ f ih =>
      intro n acc hacc c hc
      have hd : (! blockedChars.contains ((n % 10).digitChar)) = true := by
        have h10 : n % 10 < 10 := Nat.mod_lt _ (by norm_num)
        have hall : ∀ m, m < 10 → (! blockedChars.contains (Nat.digitChar m)) = true := by
          decide
        exact hall _ h10
      simp only [Nat.toDigitsCore] at hc
      by_cases hz : n / 10 = 0
      · rw [if_pos hz] at hc
        rcases List.mem_cons.mp hc with h | h
        · rw [h]
          exact hd
        · exact hacc c h
      · rw [if_neg hz] at hc
        refine ih (n / 10) _ ?_ c hc
        intro c2 hc2
        rcases List.mem_cons.mp hc2 with h | h
        · rw [h]
          exact hd
        · exact hacc c2 h

lemma noBlocked_toString (n : Nat) : noBlocked (toString n) = true := by
  show noBlocked (Nat.repr n) = true
  unfold noBlocked Nat.repr Nat.toDigits
  rw [List.all_eq_true]
  intro c hc
  exact toDigitsCore_noBlocked (n + 1) n [] (by simp) c hc

lemma noBlocked_append (a b : String) :
    noBlocked (a ++ b) = (noBlocked a && noBlocked b) := by
  unfold noBlocked
  rw [String.data_append, List.all_append]

lemma nb_emptyMsg : noBlocked emptyCityMsg = true := by decide

lemma nb_invalidMsg : noBlocked invalidCityMsg = true := by decide

lemma nb_notFoundMsg : noBlocked notFoundMsg = true := by decide

lemma nb_geoLit : noBlocked "Error fetching location data: " = true := by decide

lemma nb_weatherLit : noBlocked "Error fetching weather data: " = true := by decide

lemma nb_space : noBlocked " " = true := by decide

lemma nb_caughtLit : noBlocked "Error retrieving weather: " = true := by decide

lemma noBlocked_geoStatus (st : Nat) (t : String) (h : noBlocked t = true) :
    noBlocked (geoStatusMsg st t) = true := by
  unfold geoStatusMsg
  simp [noBlocked_append, noBlocked_toString, nb_geoLit, nb_space, h]

lemma noBlocked_weatherStatus (st : Nat) (t : String) (h : noBlocked t = true) :
    noBlocked (weatherStatusMsg st t) = true := by
  unfold weatherStatusMsg
  simp [noBlocked_append, noBlocked_toString, nb_weatherLit, nb_space, h]

lemma noBlocked_caught (e : JsError) (h : errClean e = true) :
    noBlocked (renderCaught e) = true := by
  cases e with
  | error m =>
      unfold renderCaught
      simp only [errClean] at h
      simp [noBlocked_append, nb_caughtLit, h]
  | nonError => decide

lemma quote_mem_stringify (w : WeatherData) :
    '\x22' ∈ (stringifyWeatherData w).data := by
  unfold stringifyWeatherData
  simp [String.data_append]

/-- C4 (counterexample).  The raw input `City` is rejected as not-found and
the fixed not-found message contains `City` as a literal substring, so
"the response never contains the raw input" fails as stated. -/
theorem noEcho_counterexample :
    (getWeather ⟨some "City"⟩ (.resp 200 "OK" (.ok ⟨some []⟩))
        (.throwErr .nonError)).1 = .value notFoundMsg
    ∧ infixOf ("City" : String).data notFoundMsg.data = true :=
  ⟨rfl, by decide⟩

/-- C4 (amended).  On every rejected-or-not-found path the response is one
of three fixed messages that do not depend on the input; consequently an
input (or any other string) appears in the response only if it happens to
occur in one of those fixed texts. -/
theorem getWeather_fixed_rejections (input : WeatherInput)
    (g : FetchBehavior GeocodingResult) (f : FetchBehavior WeatherData)
    (city needle : String)
    (h1 : input.city = some city)
    (hpath : jsTrim city = "" ∨ sanitizeInput city = ""
      ∨ ∃ st t res, g = .resp st t (.ok ⟨res⟩) ∧ responseOk st = true
          ∧ (res = none ∨ res = some []))
    (hn1 : infixOf needle.data emptyCityMsg.data = false)
    (hn2 : infixOf needle.data invalidCityMsg.data = false)
    (hn3 : infixOf needle.data notFoundMsg.data = false) :
    ∃ s, (getWeather input g f).1 = .value s
      ∧ (s = emptyCityMsg ∨ s = invalidCityMsg ∨ s = notFoundMsg)
      ∧ infixOf needle.data s.data = false := by
  by_cases ht : jsTrim city = ""
  · exact ⟨emptyCityMsg, by simp [getWeather, getWeatherTry, h1, ht],
      Or.inl rfl, hn1⟩
  by_cases hsan : sanitizeInput city = ""
  · have hc : city ≠ "" := by
      intro he
      apply ht
      rw [he]
      rfl
    exact ⟨invalidCityMsg, by simp [getWeather, getWeatherTry, h1, ht, hc, hsan],
      Or.inr (Or.inl rfl), hn2⟩
  rcases hpath with h | h | ⟨st, t, res, hgeq, hok, hres⟩
  · exact absurd h ht
  · exact absurd h hsan
  have hv := sanitize_valid city hsan
  rcases hres with hr | hr <;>
    exact ⟨notFoundMsg,
      by simp [getWeather, getWeatherTry, h1, hv, hsan, hgeq, hok, hr],
      Or.inr (Or.inr rfl), hn3⟩

theorem getWeather_fixed_rejections_witness :
    ∃ s, (getWeather ⟨some "NonExistentCity123"⟩
        (.resp 200 "OK" (.ok ⟨some []⟩)) (.throwErr .nonError)).1 = .value s
      ∧ (s = emptyCityMsg ∨ s = invalidCityMsg ∨ s = notFoundMsg)
      ∧ infixOf ("NonExistentCity123" : String).data s.data = false :=
  getWeather_fixed_rejections _ _ _ "NonExistentCity123" "NonExistentCity123" rfl
    (Or.inr (Or.inr ⟨200, "OK", some [], rfl, by decide, Or.inr rfl⟩))
    (by decide) (by decide) (by decide)

/-- C5 (counterexample).  A successful lookup (the claim's scope includes
the success path) returns pretty-printed JSON, which contains the
double quote — one of the blocked characters — so "the result never
contains any blocked character" fails as stated. -/
theorem blockedChars_counterexample :
    sanitizeInput "London" ≠ ""
    ∧ (getWeather ⟨some "London"⟩
        (.resp 200 "OK" (.ok ⟨some [⟨"51.5074", "-0.1278", "London", "GB"⟩]⟩))
        (.resp 200 "OK" (.ok wLondon))).1 = .value (stringifyWeatherData wLondon)
    ∧ '\x22' ∈ (stringifyWeatherData wLondon).data
    ∧ '\x22' ∈ blockedChars :=
  ⟨by decide, rfl, by decide, by decide⟩

/-- C5 (amended).  For inputs with a non-empty sanitized city: on every
non-success path whose upstream-supplied texts are free of the blocked
characters the response contains no blocked character; the success-path
response is JSON and always contains the double quote. -/
theorem getWeather_blockedChars (input : WeatherInput)
    (g : FetchBehavior GeocodingResult) (f : FetchBehavior WeatherData)
    (city : String)
    (h1 : input.city = some city) (h2 : sanitizeInput city ≠ "")
    (hg : fetchClean g = true) (hf : fetchClean f = true) :
    ∃ s, (getWeather input g f).1 = .value s
      ∧ (isSuccessRun input g f = false → noBlocked s = true)
      ∧ (isSuccessRun input g f = true → '\x22' ∈ s.data) := by
  have hv := sanitize_valid city h2
  rcases input with ⟨cityF⟩
  cases h1
  rcases g with e | ⟨st, t, body⟩
  · have hcl : errClean e = true := by simpa [fetchClean] using hg
    have hS : isSuccessRun ⟨some city⟩ (.throwErr e) f = false := by
      simp [isSuccessRun, hv, h2]
    refine ⟨renderCaught e, by simp [getWeather, getWeatherTry, hv, h2], ?_, ?_⟩
    · exact fun _ => noBlocked_caught e hcl
    · intro hc
      rw [hS] at hc
      exact absurd hc (by simp)
  cases hok : responseOk st with
  | false =>
      have hclt : noBlocked t = true := by
        rcases body with e | gd
        · simp [fetchClean] at hg
          exact hg.1
        · simp [fetchClean] at hg
          exact hg
      have hS : isSuccessRun ⟨some city⟩ (.resp st t body) f = false := by
        simp [isSuccessRun, hv, h2, hok]
      refine ⟨geoStatusMsg st t,
        by simp [getWeather, getWeatherTry, hv, h2, hok], ?_, ?_⟩
      · exact fun _ => noBlocked_geoStatus st t hclt
      · intro hc
        rw [hS] at hc
        exact absurd hc (by simp)
  | true =>
  rcases body with e | ⟨res⟩
  · have hcl : errClean e = true := by
      simp [fetchClean] at hg
      exact hg.2
    have hS : isSuccessRun ⟨some city⟩ (.resp st t (.error e)) f = false := by
      simp [isSuccessRun, hv, h2, hok]
    refine ⟨renderCaught e,
      by simp [getWeather, getWeatherTry, hv, h2, hok], ?_, ?_⟩
    · exact fun _ => noBlocked_caught e hcl
    · intro hc
      rw [hS] at hc
      exact absurd hc (by simp)
  rcases res with _ | l
  · have hS : isSuccessRun ⟨some city⟩ (.resp st t (.ok ⟨none⟩)) f = false := by
      simp [isSuccessRun, hv, h2, hok]
    refine ⟨notFoundMsg,
      by simp [getWeather, getWeatherTry, hv, h2, hok], ?_, ?_⟩
    · exact fun _ => nb_notFoundMsg
    · intro hc
      rw [hS] at hc
      exact absurd hc (by simp)
  rcases l with _ | ⟨c0, cs⟩
  · have hS : isSuccessRun ⟨some city⟩ (.resp st t (.ok ⟨some []⟩)) f = false := by
      simp [isSuccessRun, hv, h2, hok]
    refine ⟨notFoundMsg,
      by simp [getWeather, getWeatherTry, hv, h2, hok], ?_, ?_⟩
    · exact fun _ => nb_notFoundMsg
    · intro hc
      rw [hS] at hc
      exact absurd hc (by simp)
  rcases f with e2 | ⟨st2, t2, body2⟩
  · have hcl : errClean e2 = true := by simpa [fetchClean] using hf
    have hS : isSuccessRun ⟨some city⟩ (.resp st t (.ok ⟨some (c0 :: cs)⟩))
        (.throwErr e2) = false := by
      simp [isSuccessRun, hv, h2, hok]
    refine ⟨renderCaught e2,
      by simp [getWeather, getWeatherTry, hv, h2, hok], ?_, ?_⟩
    · exact fun _ => noBlocked_caught e2 hcl
    · intro hc
      rw [hS] at hc
      exact absurd hc (by simp)
  cases hok2 : responseOk st2 with
  | false =>
      have hclt : noBlocked t2 = true := by
        rcases body2 with e | wd
        · simp [fetchClean] at hf
          exact hf.1
        · simp [fetchClean] at hf
          exact hf
      have hS : isSuccessRun ⟨some city⟩ (.resp st t (.ok ⟨some (c0 :: cs)⟩))
          (.resp st2 t2 body2) = false := by
        simp [isSuccessRun, hv, h2, hok, hok2]
      refine ⟨weatherStatusMsg st2 t2,
        by simp [getWeather, getWeatherTry, hv, h2, hok, hok2], ?_, ?_⟩
      · exact fun _ => noBlocked_weatherStatus st2 t2 hclt
      · intro hc
        rw [hS] at hc
        exact absurd hc (by simp)
  | true =>
  rcases body2 with e2 | w
  · have hcl : errClean e2 = true := by
      simp [fetchClean] at hf
      exact hf.2
    have hS : isSuccessRun ⟨some city⟩ (.resp st t (.ok ⟨some (c0 :: cs)⟩))
        (.resp st2 t2 (.error e2)) = false := by
      simp [isSuccessRun, hv, h2, hok, hok2]
    refine ⟨renderCaught e2,
      by simp [getWeather, getWeatherTry, hv, h2, hok, hok2], ?_, ?_⟩
    · exact fun _ => noBlocked_caught e2 hcl
    · intro hc
      rw [hS] at hc
      exact absurd hc (by simp)
  · have hS : isSuccessRun ⟨some city⟩ (.resp st t (.ok ⟨some (c0 :: cs)⟩))
        (.resp st2 t2 (.ok w)) = true := by
      simp [isSuccessRun, hv, h2, hok, hok2]
    refine ⟨stringifyWeatherData w,
      by simp [getWeather, getWeatherTry, hv, h2, hok, hok2], ?_, ?_⟩
    · intro hc
      rw [hS] at hc
      exact absurd hc (by simp)
    · exact fun _ => quote_mem_stringify w

theorem getWeather_blockedChars_witness :
    ∃ s, (getWeather ⟨some "London"⟩
        (.resp 500 "Internal Server Error" (.ok ⟨some []⟩))
        (.throwErr .nonError)).1 = .value s
      ∧ (isSuccessRun ⟨some "London"⟩
            (.resp 500 "Internal Server Error" (.ok ⟨some []⟩))
            (.throwErr .nonError) = false → noBlocked s = true)
      ∧ (isSuccessRun ⟨some "London"⟩
            (.resp 500 "Internal Server Error" (.ok ⟨some []⟩))
            (.throwErr .nonError) = true → '\x22' ∈ s.data) :=
  getWeather_blockedChars _ _ _ "London" rfl (by decide) (by decide) (by decide)

end WeatherSpec
